import Mathlib

/-!
Shallow embedding of the task-queue subsystem of
`blackroad-salesforce-agent` (`src/queue/task_queue.py`) and proofs of the
spec's claims about it.

Modelling conventions:
* `time.time()` values are modelled as `Nat` parameters passed explicitly to
  each operation that reads the clock (`pop` calls the clock twice — once for
  the `UPDATE` and once for the returned `Task` — so it takes two).
* JSON payloads (`data`, `result`) are opaque to the queue; they are modelled
  as `String` (the `json.dumps`/`json.loads` round-trip on the `data` column
  is modelled as the identity on that opaque string).
* The SQLite `status` column is `TEXT`; it is modelled as `String` so that the
  unconditional `UPDATE ... SET status = '...'` statements are rendered
  exactly, with no status guard the source does not have.
* The `priority` column is `INTEGER`; every write into it is
  `task.priority.value` for a `TaskPriority` enum member, so the column is
  modelled with the enum type and `ORDER BY priority DESC` compares `.value`.
* `uuid.uuid4()` in `TaskQueue.submit` is an external id supply; it is
  modelled as an explicit id argument.
* `sqlite3` raises `IntegrityError` on a duplicate primary key, so `push`
  returns `Except`; all other backend operations are plain `UPDATE`/`SELECT`
  statements that raise nothing, and are total functions on the state.
-/

namespace TQ

/-- `TaskStatus` enum from `task_queue.py`. -/
inductive TaskStatus where
  | pending
  | processing
  | completed
  | failed
  | retrying
  deriving DecidableEq, Repr

/-- `TaskStatus.value` — the string value of each enum member. -/
def TaskStatus.value : TaskStatus → String
  | .pending => "pending"
  | .processing => "processing"
  | .completed => "completed"
  | .failed => "failed"
  | .retrying => "retrying"

/-- `TaskStatus(v)` — enum lookup by value; raises `ValueError` (here: `none`)
on an unknown string. -/
def TaskStatus.ofValue (v : String) : Option TaskStatus :=
  if v = "pending" then some .pending
  else if v = "processing" then some .processing
  else if v = "completed" then some .completed
  else if v = "failed" then some .failed
  else if v = "retrying" then some .retrying
  else none

/-- `TaskPriority` enum from `task_queue.py`. -/
inductive TaskPriority where
  | low
  | normal
  | high
  | urgent
  deriving DecidableEq, Repr

/-- `TaskPriority.value` — LOW=0, NORMAL=1, HIGH=2, URGENT=3. -/
def TaskPriority.value : TaskPriority → Nat
  | .low => 0
  | .normal => 1
  | .high => 2
  | .urgent => 3

/-- `TaskPriority(v)` — enum lookup by value. -/
def TaskPriority.ofValue (v : Nat) : Option TaskPriority :=
  if v = 0 then some .low
  else if v = 1 then some .normal
  else if v = 2 then some .high
  else if v = 3 then some .urgent
  else none

/-- The `Task` dataclass. Field defaults follow the source
(`status=PENDING`, `priority=NORMAL`, `retry_count=0`, `max_retries=3`,
everything nullable defaulting to `None`). -/
structure Task where
  id : String
  operation : String
  sobject : String
  data : String
  status : TaskStatus := .pending
  priority : TaskPriority := .normal
  created_at : Nat
  started_at : Option Nat := none
  completed_at : Option Nat := none
  result : Option String := none
  error : Option String := none
  retry_count : Nat := 0
  max_retries : Nat := 3
  agent_id : Option String := none
  deriving DecidableEq, Repr

/-- The flat record produced by `Task.to_dict`: the same fields with
`status` and `priority` replaced by their enum values. -/
structure TaskDict where
  id : String
  operation : String
  sobject : String
  data : String
  status : String
  priority : Nat
  created_at : Nat
  started_at : Option Nat
  completed_at : Option Nat
  result : Option String
  error : Option String
  retry_count : Nat
  max_retries : Nat
  agent_id : Option String
  deriving DecidableEq, Repr

/-- `Task.to_dict`: `asdict(self)` with `status`/`priority` replaced by
their `.value`. -/
def Task.to_dict (t : Task) : TaskDict :=
  { id := t.id, operation := t.operation, sobject := t.sobject, data := t.data
    status := t.status.value, priority := t.priority.value
    created_at := t.created_at, started_at := t.started_at
    completed_at := t.completed_at, result := t.result, error := t.error
    retry_count := t.retry_count, max_retries := t.max_retries
    agent_id := t.agent_id }

/-- `Task.from_dict`: converts `status`/`priority` back through the enum
constructors (a `ValueError` from an invalid value is `none`) and rebuilds
the dataclass. -/
def Task.from_dict (d : TaskDict) : Option Task :=
  match TaskStatus.ofValue d.status, TaskPriority.ofValue d.priority with
  | some st, some pr =>
      some { id := d.id, operation := d.operation, sobject := d.sobject
             data := d.data, status := st, priority := pr
             created_at := d.created_at, started_at := d.started_at
             completed_at := d.completed_at, result := d.result
             error := d.error, retry_count := d.retry_count
             max_retries := d.max_retries, agent_id := d.agent_id }
  | _, _ => none

/-- One row of the SQLite `tasks` table (schema in `_init_db`). -/
structure Row where
  id : String
  operation : String
  sobject : String
  data : String
  status : String
  priority : TaskPriority
  created_at : Nat
  started_at : Option Nat
  completed_at : Option Nat
  result : Option String
  error : Option String
  retry_count : Nat
  max_retries : Nat
  agent_id : Option String
  deriving DecidableEq, Repr

/-- The durable state: the `tasks` table, rows in insertion (rowid) order. -/
structure QState where
  tasks : List Row
  deriving DecidableEq, Repr

/-- Errors the backend can raise: only `push` can, on a duplicate primary
key (`sqlite3.IntegrityError`). -/
inductive QErr where
  | duplicateId
  deriving DecidableEq, Repr

/-- `UPDATE tasks SET ... WHERE id = ?`: applies `f` to every row whose `id`
matches, leaves the rest untouched. -/
def updateWhereId (taskId : String) (f : Row → Row) (l : List Row) : List Row :=
  l.map fun r => if r.id = taskId then f r else r

/-- `SQLiteBackend.push`: `INSERT INTO tasks (id, operation, sobject, data,
status, priority, created_at, max_retries) VALUES (...)`. Columns not in the
insert list take their schema defaults (`retry_count` 0, the nullable columns
`NULL`). A duplicate id violates the primary-key constraint. -/
def SQLiteBackend.push (s : QState) (t : Task) : Except QErr QState :=
  if s.tasks.any (fun r => r.id = t.id) then .error .duplicateId
  else .ok ⟨s.tasks ++ [{ id := t.id, operation := t.operation
                          sobject := t.sobject, data := t.data
                          status := t.status.value, priority := t.priority
                          created_at := t.created_at, started_at := none
                          completed_at := none, result := none, error := none
                          retry_count := 0, max_retries := t.max_retries
                          agent_id := none }]⟩

/-- `a` strictly outranks `b` under `ORDER BY priority DESC, created_at ASC`. -/
def rankBetter (a b : Row) : Bool :=
  a.priority.value > b.priority.value ||
    (a.priority.value = b.priority.value && a.created_at < b.created_at)

/-- `SELECT ... ORDER BY priority DESC, created_at ASC LIMIT 1` over a list
of candidate rows: the first row not strictly outranked by any other. -/
def selectBest : List Row → Option Row
  | [] => none
  | r :: rs =>
      match selectBest rs with
      | none => some r
      | some b => if rankBetter b r then some b else some r

/-- The `SELECT` statement of `pop`: best `'pending'` row, or none. -/
def popSelect (s : QState) : Option Row :=
  selectBest (s.tasks.filter (fun r => r.status = "pending"))

/-- The `UPDATE` statement of `pop`:
`UPDATE tasks SET status = 'processing', started_at = ?, agent_id = ? WHERE
id = ?`. Note it has no `status = 'pending'` guard. -/
def popUpdate (s : QState) (rowId agentId : String) (now : Nat) : QState :=
  ⟨updateWhereId rowId
    (fun r => { r with status := "processing", started_at := some now
                       agent_id := some agentId }) s.tasks⟩

/-- The `Task` object `pop` builds from the selected row (its second
`time.time()` call supplies `started_at`). -/
def popReturn (row : Row) (agentId : String) (now2 : Nat) : Task :=
  { id := row.id, operation := row.operation, sobject := row.sobject
    data := row.data, status := .processing, priority := row.priority
    created_at := row.created_at, started_at := some now2
    retry_count := row.retry_count, max_retries := row.max_retries
    agent_id := some agentId }

/-- `SQLiteBackend.pop`: the `SELECT` followed by the `UPDATE`, each a
separate statement on the connection. `now` is the clock value used by the
`UPDATE`, `now2` the one used for the returned `Task`. -/
def SQLiteBackend.pop (s : QState) (agentId : String) (now now2 : Nat) :
    Option Task × QState :=
  match popSelect s with
  | none => (none, s)
  | some row => (some (popReturn row agentId now2), popUpdate s row.id agentId now)

/-- `SQLiteBackend.complete`: `UPDATE tasks SET status = 'completed',
completed_at = ?, result = ? WHERE id = ?` — unconditional, no status guard,
no error on an unmatched id. -/
def SQLiteBackend.complete (s : QState) (taskId : String) (result : String)
    (now : Nat) : QState :=
  ⟨updateWhereId taskId
    (fun r => { r with status := "completed", completed_at := some now
                       result := some result }) s.tasks⟩

/-- `SQLiteBackend.fail`: `UPDATE tasks SET status = 'failed',
completed_at = ?, error = ? WHERE id = ?` — unconditional; it clears neither
`agent_id` nor `started_at`. -/
def SQLiteBackend.fail (s : QState) (taskId : String) (error : String)
    (now : Nat) : QState :=
  ⟨updateWhereId taskId
    (fun r => { r with status := "failed", completed_at := some now
                       error := some error }) s.tasks⟩

/-- `SQLiteBackend.retry`: reads `retry_count, max_retries` for the id; if the
row is missing or the budget is exhausted it returns `False` without touching
the table, otherwise it resets the row to `'pending'`, increments
`retry_count` and clears `started_at`/`agent_id`. It never looks at `status`. -/
def SQLiteBackend.retry (s : QState) (taskId : String) : Bool × QState :=
  match s.tasks.find? (fun r => r.id = taskId) with
  | none => (false, s)
  | some row =>
      if row.retry_count ≥ row.max_retries then (false, s)
      else
        (true,
         ⟨updateWhereId taskId
           (fun r => { r with status := "pending"
                              retry_count := r.retry_count + 1
                              started_at := none, agent_id := none }) s.tasks⟩)

/-- The result of `get_stats`: the five keys the stats dict is seeded with. -/
structure Stats where
  pending : Nat
  processing : Nat
  completed : Nat
  failed : Nat
  total : Nat
  deriving DecidableEq, Repr

/-- `COUNT(*)` of the rows in status `st`. -/
def countStatus (s : QState) (st : String) : Nat :=
  s.tasks.countP (fun r => r.status = st)

/-- The distinct status values present in the table — the groups of
`SELECT status, COUNT(*) FROM tasks GROUP BY status`. -/
def statusGroups (s : QState) : List String :=
  (s.tasks.map Row.status).dedup

/-- `SQLiteBackend.get_stats`: seeds the five counters at 0, then for every
`GROUP BY status` row stores its count under its status key and adds it to
`total`. (A group whose status is none of the four named keys still adds to
`total`; its count lands outside the four named fields.) -/
def SQLiteBackend.get_stats (s : QState) : Stats :=
  { pending := countStatus s "pending"
    processing := countStatus s "processing"
    completed := countStatus s "completed"
    failed := countStatus s "failed"
    total := ((statusGroups s).map (fun st => countStatus s st)).sum }

/-- `TaskQueue.submit`: builds a `Task` with a fresh id, the given fields and
all dataclass defaults (status `PENDING`, `retry_count` 0, `max_retries` 3),
and pushes it. Returns the id. -/
def TaskQueue.submit (s : QState) (freshId operation sobject data : String)
    (priority : TaskPriority) (now : Nat) : Except QErr (String × QState) :=
  match SQLiteBackend.push s
      { id := freshId, operation := operation, sobject := sobject
        data := data, priority := priority, created_at := now } with
  | .ok s' => .ok (freshId, s')
  | .error e => .error e

/-- `TaskQueue.get_next`: pass-through to `SQLiteBackend.pop`. -/
def TaskQueue.get_next (s : QState) (agentId : String) (now now2 : Nat) :
    Option Task × QState :=
  SQLiteBackend.pop s agentId now now2

/-- `TaskQueue.complete`: pass-through to `SQLiteBackend.complete`. -/
def TaskQueue.complete (s : QState) (taskId result : String) (now : Nat) :
    QState :=
  SQLiteBackend.complete s taskId result now

/-- `TaskQueue.fail`: `if not self._backend.retry(task_id):
self._backend.fail(task_id, error)`. A total function — no error channel. -/
def TaskQueue.fail (s : QState) (taskId error : String) (now : Nat) : QState :=
  match SQLiteBackend.retry s taskId with
  | (true, s') => s'
  | (false, s') => SQLiteBackend.fail s' taskId error now

/-- `TaskQueue.stats`: pass-through to `SQLiteBackend.get_stats`. -/
def TaskQueue.stats (s : QState) : Stats :=
  SQLiteBackend.get_stats s

/-- States reachable through the public `TaskQueue` interface, indexed by the
number of tasks ever submitted. -/
inductive Reach : Nat → QState → Prop where
  | init : Reach 0 ⟨[]⟩
  | submit {n s s' freshId operation sobject data priority now} :
      Reach n s →
      TaskQueue.submit s freshId operation sobject data priority now =
        .ok (freshId, s') →
      Reach (n + 1) s'
  | claim {n s agentId now now2} :
      Reach n s → Reach n (TaskQueue.get_next s agentId now now2).2
  | complete {n s taskId result now} :
      Reach n s → Reach n (TaskQueue.complete s taskId result now)
  | fail {n s taskId error now} :
      Reach n s → Reach n (TaskQueue.fail s taskId error now)

/-! ### Helper lemmas -/

theorem rankBetter_asymm {a b : Row} (h : rankBetter a b = true) :
    rankBetter b a = false := by
  simp only [rankBetter, Bool.or_eq_true, Bool.and_eq_true, decide_eq_true_eq,
    Bool.or_eq_false_iff, Bool.and_eq_false_iff, decide_eq_false_iff_not] at *
  omega

theorem rankBetter_neg_trans {a b c : Row} (hab : rankBetter a b = false)
    (hbc : rankBetter b c = false) : rankBetter a c = false := by
  simp only [rankBetter, Bool.or_eq_false_iff, Bool.and_eq_false_iff,
    decide_eq_false_iff_not] at *
  omega

theorem selectBest_eq_none {l : List Row} : selectBest l = none ↔ l = [] := by
  cases l with
  | nil => simp [selectBest]
  | cons r rs =>
      simp only [selectBest]
      cases h : selectBest rs with
      | none => simp
      | some b =>
          constructor
          · intro hc
            by_cases hb : rankBetter b r = true <;> simp [hb] at hc
          · intro hc
            exact absurd hc (by simp)

theorem selectBest_mem {l : List Row} {r : Row} (h : selectBest l = some r) :
    r ∈ l := by
  induction l with
  | nil => simp [selectBest] at h
  | cons x xs ih =>
      simp only [selectBest] at h
      cases hx : selectBest xs with
      | none => rw [hx] at h; simp at h; simp [h]
      | some b =>
          rw [hx] at h
          by_cases hb : rankBetter b x = true
          · simp [hb] at h
            exact List.mem_cons_of_mem _ (ih (h ▸ hx))
          · simp [hb] at h
            simp [h]

theorem rankBetter_irrefl (a : Row) : rankBetter a a = false := by
  simp only [rankBetter, Bool.or_eq_false_iff, Bool.and_eq_false_iff,
    decide_eq_false_iff_not]
  omega

theorem selectBest_max {l : List Row} {r : Row} (h : selectBest l = some r) :
    ∀ u ∈ l, rankBetter u r = false := by
  induction l generalizing r with
  | nil => simp [selectBest] at h
  | cons x xs ih =>
      simp only [selectBest] at h
      intro u hu
      cases hx : selectBest xs with
      | none =>
          rw [hx] at h
          simp at h
          rcases List.mem_cons.mp hu with h1 | h1
          · subst h1; rw [← h]; exact rankBetter_irrefl u
          · rw [selectBest_eq_none.mp hx] at h1
            simp at h1
      | some b =>
          rw [hx] at h
          by_cases hb : rankBetter b x = true
          · simp [hb] at h
            subst h
            rcases List.mem_cons.mp hu with h1 | h1
            · subst h1; exact rankBetter_asymm hb
            · exact ih hx u h1
          · simp [hb] at h
            subst h
            rcases List.mem_cons.mp hu with h1 | h1
            · subst h1; exact rankBetter_irrefl u
            · exact rankBetter_neg_trans (ih hx u h1)
                (Bool.eq_false_iff.mpr hb)

theorem length_updateWhereId (taskId : String) (f : Row → Row)
    (l : List Row) : (updateWhereId taskId f l).length = l.length := by
  simp [updateWhereId]

theorem mem_updateWhereId_of_ne {r : Row} {l : List Row} {taskId : String}
    {f : Row → Row} (hr : r ∈ l) (hne : r.id ≠ taskId) :
    r ∈ updateWhereId taskId f l := by
  have := List.mem_map_of_mem
    (fun x => if x.id = taskId then f x else x) hr
  simpa [updateWhereId, hne] using this

theorem updateWhereId_eq_of_not_mem {l : List Row} {taskId : String}
    {f : Row → Row} (h : ∀ r ∈ l, r.id ≠ taskId) :
    updateWhereId taskId f l = l := by
  unfold updateWhereId
  rw [List.map_congr_left, List.map_id]
  intro r hr
  simp [h r hr]

theorem mem_updateWhereId {r' : Row} {l : List Row} {taskId : String}
    {f : Row → Row} (h : r' ∈ updateWhereId taskId f l) :
    ∃ r ∈ l, r' = if r.id = taskId then f r else r := by
  obtain ⟨r, hr, heq⟩ := List.mem_map.mp h
  exact ⟨r, hr, heq.symm⟩

theorem find?_updateWhereId {l : List Row} {taskId : String} {f : Row → Row}
    (hf : ∀ r, (f r).id = r.id) :
    (updateWhereId taskId f l).find? (fun r => r.id = taskId) =
      (l.find? (fun r => r.id = taskId)).map f := by
  induction l with
  | nil => simp [updateWhereId]
  | cons x xs ih =>
      by_cases hx : x.id = taskId
      · simp [updateWhereId, List.find?, hx, hf]
      · simp only [updateWhereId, List.map_cons, if_neg hx, List.find?]
        rw [decide_eq_false hx]
        simpa [updateWhereId] using ih

/-! ### Claims -/

/-- **C10.** Deserialization inverts serialization: for every `Task` value,
`Task.from_dict (Task.to_dict t) = some t` — status and priority are restored
to the same enum members and every other field is unchanged. (In the typed
embedding `status`/`priority` are always valid enum members, which is the
claim's hypothesis.) -/
theorem C10_from_dict_to_dict (t : Task) :
    Task.from_dict (Task.to_dict t) = some t := by
  cases t with
  | mk id operation sobject data status priority created_at started_at
      completed_at result error retry_count max_retries agent_id =>
    cases status <;> cases priority <;> rfl

/-- **C7 counterexample.** On a store that does not contain id `"x"`,
`complete` does not raise `NotFoundError`: it is a total function and returns
the state unchanged — and the same holds for `fail`. No `NotFoundError`
exists in the code. -/
theorem C7_unknown_id_no_error :
    SQLiteBackend.complete ⟨[]⟩ "x" "r" 5 = ⟨[]⟩ ∧
      TaskQueue.fail ⟨[]⟩ "x" "boom" 5 = ⟨[]⟩ := by
  constructor <;> rfl

/-- **C7 amended.** `complete` and `fail` on an id that is not present are
silent no-ops: they raise nothing (they are total, with no error channel) and
leave every row unchanged; `retry` returns `false` with the state
unchanged. -/
theorem C7_unknown_id_noop (s : QState) (taskId result error : String)
    (now : Nat) (h : ∀ r ∈ s.tasks, r.id ≠ taskId) :
    SQLiteBackend.complete s taskId result now = s ∧
      SQLiteBackend.fail s taskId error now = s ∧
      SQLiteBackend.retry s taskId = (false, s) ∧
      TaskQueue.fail s taskId error now = s := by
  have hfind : s.tasks.find? (fun r => r.id = taskId) = none := by
    rw [List.find?_eq_none]
    intro r hr
    simpa using h r hr
  have hcomp : SQLiteBackend.complete s taskId result now = s := by
    simp [SQLiteBackend.complete, updateWhereId_eq_of_not_mem h]
  have hfail : SQLiteBackend.fail s taskId error now = s := by
    simp [SQLiteBackend.fail, updateWhereId_eq_of_not_mem h]
  have hretry : SQLiteBackend.retry s taskId = (false, s) := by
    simp [SQLiteBackend.retry, hfind]
  refine ⟨hcomp, hfail, hretry, ?_⟩
  simp [TaskQueue.fail, hretry, hfail]

/-- **C7 amended, witness.** -/
theorem C7_unknown_id_noop_witness :
    SQLiteBackend.complete ⟨[]⟩ "y" "r" 3 = ⟨[]⟩ ∧
      SQLiteBackend.fail ⟨[]⟩ "y" "e" 3 = ⟨[]⟩ ∧
      SQLiteBackend.retry ⟨[]⟩ "y" = (false, ⟨[]⟩) ∧
      TaskQueue.fail ⟨[]⟩ "y" "e" 3 = ⟨[]⟩ :=
  C7_unknown_id_noop ⟨[]⟩ "y" "r" "e" 3 (by simp)

/-- **C4.** `pop` returns `none` exactly when no `'pending'` row exists, and
when it returns a task, that task is built from a `'pending'` row that no
other `'pending'` row strictly outranks under
`ORDER BY priority DESC, created_at ASC` — strict priority with FIFO
tie-break within a priority tier. -/
theorem C4_pop_best (s : QState) (agentId : String) (now now2 : Nat) :
    ((SQLiteBackend.pop s agentId now now2).1 = none ↔
      ∀ r ∈ s.tasks, r.status ≠ "pending") ∧
    (∀ t, (SQLiteBackend.pop s agentId now now2).1 = some t →
      ∃ r ∈ s.tasks, r.status = "pending" ∧ t = popReturn r agentId now2 ∧
        ∀ u ∈ s.tasks, u.status = "pending" → rankBetter u r = false) := by
  cases hsel : popSelect s with
  | none =>
      have hnil : s.tasks.filter (fun r => r.status = "pending") = [] :=
        selectBest_eq_none.mp hsel
      constructor
      · simp only [SQLiteBackend.pop, hsel]
        constructor
        · intro _ r hr hpend
          have : r ∈ s.tasks.filter (fun r => r.status = "pending") :=
            List.mem_filter.mpr ⟨hr, by simpa using hpend⟩
          rw [hnil] at this
          simp at this
        · intro _; trivial
      · intro t ht
        simp [SQLiteBackend.pop, hsel] at ht
  | some row =>
      have hmem := selectBest_mem hsel
      have hrow : row ∈ s.tasks ∧ row.status = "pending" := by
        have := List.mem_filter.mp hmem
        exact ⟨this.1, by simpa using this.2⟩
      constructor
      · simp only [SQLiteBackend.pop, hsel]
        constructor
        · intro hc; simp at hc
        · intro hall
          exact absurd hrow.2 (hall row hrow.1)
      · intro t ht
        simp only [SQLiteBackend.pop, hsel, Option.some.injEq] at ht
        refine ⟨row, hrow.1, hrow.2, ht.symm, ?_⟩
        intro u hu hupend
        exact selectBest_max hsel u
          (List.mem_filter.mpr ⟨hu, by simpa using hupend⟩)

/-- **C4 witness.** The spec's example: tasks submitted with priorities
[Low, Urgent, Normal] in that order; the first claim returns the Urgent
one, and it is maximal among the pending rows. -/
def C4_rowLow : Row :=
  { id := "tL", operation := "create", sobject := "Acct", data := "d"
    status := "pending", priority := .low, created_at := 0
    started_at := none, completed_at := none, result := none, error := none
    retry_count := 0, max_retries := 3, agent_id := none }

def C4_rowUrgent : Row :=
  { C4_rowLow with id := "tU", priority := .urgent, created_at := 1 }

def C4_rowNormal : Row :=
  { C4_rowLow with id := "tN", priority := .normal, created_at := 2 }

def C4_s : QState := ⟨[C4_rowLow, C4_rowUrgent, C4_rowNormal]⟩

theorem C4_pop_best_witness :
    ∃ r ∈ C4_s.tasks, r.status = "pending" ∧
      popReturn C4_rowUrgent "a" 6 = popReturn r "a" 6 ∧
      ∀ u ∈ C4_s.tasks, u.status = "pending" → rankBetter u r = false :=
  (C4_pop_best C4_s "a" 5 6).2 (popReturn C4_rowUrgent "a" 6) (by decide)

/-- The row transformation of `retry`'s `UPDATE`. -/
def requeueRow (r : Row) : Row :=
  { r with status := "pending", retry_count := r.retry_count + 1
           started_at := none, agent_id := none }

/-- The row transformation of `SQLiteBackend.fail`'s `UPDATE`. -/
def markFailedRow (error : String) (now : Nat) (r : Row) : Row :=
  { r with status := "failed", completed_at := some now, error := some error }

/-- **C3.** `TaskQueue.fail` implements the retry policy. If the row for the
id has `retry_count < max_retries`, the row is reset to `'pending'` with
`retry_count` incremented and `started_at`/`agent_id` cleared (every other
field unchanged), and `retry` reported `true`. If the budget is exhausted,
the requeue attempt performs no mutation (`retry` returns `(false, s)`) and
the row becomes terminal `'failed'` with `completed_at` stamped and the error
message stored (every other field unchanged). Rows with other ids are
untouched in both cases. -/
theorem C3_fail_retry_policy (s : QState) (taskId error : String) (now : Nat)
    (r : Row) (hfind : s.tasks.find? (fun x => x.id = taskId) = some r) :
    (r.retry_count < r.max_retries →
      SQLiteBackend.retry s taskId = (true, ⟨updateWhereId taskId requeueRow s.tasks⟩) ∧
      (TaskQueue.fail s taskId error now).tasks.find? (fun x => x.id = taskId) =
        some (requeueRow r) ∧
      ∀ u ∈ s.tasks, u.id ≠ taskId →
        u ∈ (TaskQueue.fail s taskId error now).tasks) ∧
    (r.max_retries ≤ r.retry_count →
      SQLiteBackend.retry s taskId = (false, s) ∧
      (TaskQueue.fail s taskId error now).tasks.find? (fun x => x.id = taskId) =
        some (markFailedRow error now r) ∧
      ∀ u ∈ s.tasks, u.id ≠ taskId →
        u ∈ (TaskQueue.fail s taskId error now).tasks) := by
  constructor
  · intro hlt
    have hretry : SQLiteBackend.retry s taskId =
        (true, ⟨updateWhereId taskId requeueRow s.tasks⟩) := by
      simp only [SQLiteBackend.retry, hfind]
      rw [if_neg (by omega)]
      rfl
    have hfail : TaskQueue.fail s taskId error now =
        ⟨updateWhereId taskId requeueRow s.tasks⟩ := by
      simp [TaskQueue.fail, hretry]
    refine ⟨hretry, ?_, ?_⟩
    · rw [hfail]
      have := @find?_updateWhereId s.tasks taskId requeueRow (fun _ => rfl)
      rw [this, hfind]
      rfl
    · intro u hu hne
      rw [hfail]
      exact mem_updateWhereId_of_ne hu hne
  · intro hge
    have hretry : SQLiteBackend.retry s taskId = (false, s) := by
      simp only [SQLiteBackend.retry, hfind]
      rw [if_pos (by omega)]
    have hfail : TaskQueue.fail s taskId error now =
        SQLiteBackend.fail s taskId error now := by
      simp [TaskQueue.fail, hretry]
    refine ⟨hretry, ?_, ?_⟩
    · rw [hfail]
      have h1 := @find?_updateWhereId s.tasks taskId
        (markFailedRow error now) (fun _ => rfl)
      have h2 : (SQLiteBackend.fail s taskId error now).tasks =
          updateWhereId taskId (markFailedRow error now) s.tasks := rfl
      rw [h2, h1, hfind]
      rfl
    · intro u hu hne
      rw [hfail]
      exact mem_updateWhereId_of_ne hu hne

/-- **C3 witness.** Both branches at concrete states: a claimed row with
budget left (`retry_count = 0 < 3`) is requeued with count 1; a claimed row
with exhausted budget (`retry_count = 3`) becomes `'failed'` with the error
recorded. -/
def C3_rowFresh : Row :=
  { id := "t1", operation := "create", sobject := "Acct", data := "d"
    status := "processing", priority := .normal, created_at := 0
    started_at := some 1, completed_at := none, result := none, error := none
    retry_count := 0, max_retries := 3, agent_id := some "a" }

def C3_rowSpent : Row := { C3_rowFresh with retry_count := 3 }

theorem C3_fail_retry_policy_witness :
    (SQLiteBackend.retry ⟨[C3_rowFresh]⟩ "t1" =
      (true, ⟨updateWhereId "t1" requeueRow [C3_rowFresh]⟩) ∧
     (TaskQueue.fail ⟨[C3_rowFresh]⟩ "t1" "e" 9).tasks.find?
        (fun x => x.id = "t1") = some (requeueRow C3_rowFresh) ∧
     ∀ u ∈ (⟨[C3_rowFresh]⟩ : QState).tasks, u.id ≠ "t1" →
        u ∈ (TaskQueue.fail ⟨[C3_rowFresh]⟩ "t1" "e" 9).tasks) ∧
    (SQLiteBackend.retry ⟨[C3_rowSpent]⟩ "t1" = (false, ⟨[C3_rowSpent]⟩) ∧
     (TaskQueue.fail ⟨[C3_rowSpent]⟩ "t1" "e" 9).tasks.find?
        (fun x => x.id = "t1") = some (markFailedRow "e" 9 C3_rowSpent) ∧
     ∀ u ∈ (⟨[C3_rowSpent]⟩ : QState).tasks, u.id ≠ "t1" →
        u ∈ (TaskQueue.fail ⟨[C3_rowSpent]⟩ "t1" "e" 9).tasks) :=
  ⟨(C3_fail_retry_policy ⟨[C3_rowFresh]⟩ "t1" "e" 9 C3_rowFresh (by decide)).1
      (by decide),
   (C3_fail_retry_policy ⟨[C3_rowSpent]⟩ "t1" "e" 9 C3_rowSpent (by decide)).2
      (by decide)⟩

/-- **C8.** `TaskQueue.fail` never propagates an exception: it is a total
function into `QState` (unlike `push`, it has no error channel), it preserves
the table's length, and it records the outcome purely as data — afterwards
every row with the failed id is either back to `'pending'` (requeued) or
`'failed'` with the error message stored, and every other row is an
unchanged row of the original table. -/
theorem C8_fail_records_as_data (s : QState) (taskId error : String)
    (now : Nat) :
    (TaskQueue.fail s taskId error now).tasks.length = s.tasks.length ∧
    ∀ r' ∈ (TaskQueue.fail s taskId error now).tasks,
      (r'.id ≠ taskId → r' ∈ s.tasks) ∧
      (r'.id = taskId → r'.status = "pending" ∨
        (r'.status = "failed" ∧ r'.error = some error)) := by
  have key : ∀ (f : Row → Row) (P : Row → Prop),
      (∀ u, (f u).id = u.id) → (∀ u, P (f u)) →
      ∀ r' ∈ updateWhereId taskId f s.tasks,
        (r'.id ≠ taskId → r' ∈ s.tasks) ∧ (r'.id = taskId → P r') := by
    intro f P hid hP r' hr'
    obtain ⟨u, hu, heq⟩ := mem_updateWhereId hr'
    by_cases hcase : u.id = taskId
    · rw [if_pos hcase] at heq
      subst heq
      exact ⟨fun hne => absurd ((hid u).trans hcase) hne, fun _ => hP u⟩
    · rw [if_neg hcase] at heq
      subst heq
      exact ⟨fun _ => hu, fun hEq => absurd hEq hcase⟩
  rcases hret : SQLiteBackend.retry s taskId with ⟨ok, s'⟩
  cases ok with
  | true =>
      have hs' : s' = ⟨updateWhereId taskId requeueRow s.tasks⟩ := by
        rcases hfind : s.tasks.find? (fun x => x.id = taskId) with _ | row
        · simp [SQLiteBackend.retry, hfind] at hret
        · simp only [SQLiteBackend.retry, hfind] at hret
          by_cases hb : row.retry_count ≥ row.max_retries
          · rw [if_pos hb] at hret; simp at hret
          · rw [if_neg hb] at hret
            exact (Prod.mk.injEq .. ▸ hret).2.symm
      have hfail : TaskQueue.fail s taskId error now = s' := by
        simp [TaskQueue.fail, hret]
      rw [hfail, hs']
      refine ⟨length_updateWhereId .., ?_⟩
      intro r' hr'
      exact key requeueRow (fun r => r.status = "pending" ∨
        (r.status = "failed" ∧ r.error = some error)) (fun _ => rfl)
        (fun u => Or.inl rfl) r' hr'
  | false =>
      have hs' : s' = s := by
        rcases hfind : s.tasks.find? (fun x => x.id = taskId) with _ | row
        · simp only [SQLiteBackend.retry, hfind] at hret
          exact (Prod.mk.injEq .. ▸ hret).2.symm
        · simp only [SQLiteBackend.retry, hfind] at hret
          by_cases hb : row.retry_count ≥ row.max_retries
          · rw [if_pos hb] at hret
            exact (Prod.mk.injEq .. ▸ hret).2.symm
          · rw [if_neg hb] at hret; simp at hret
      have hfail : TaskQueue.fail s taskId error now =
          SQLiteBackend.fail s' taskId error now := by
        simp [TaskQueue.fail, hret]
      rw [hfail, hs']
      refine ⟨length_updateWhereId .., ?_⟩
      intro r' hr'
      exact key (markFailedRow error now) (fun r => r.status = "pending" ∨
        (r.status = "failed" ∧ r.error = some error)) (fun _ => rfl)
        (fun u => Or.inr ⟨rfl, rfl⟩) r' hr'

/-- **C8 witness.** A processing row with exhausted budget: `fail` returns
normally and the row carries the failure as data. -/
def C8_row : Row :=
  { id := "t8", operation := "update", sobject := "Acct", data := "d"
    status := "processing", priority := .normal, created_at := 0
    started_at := some 1, completed_at := none, result := none, error := none
    retry_count := 3, max_retries := 3, agent_id := some "a" }

theorem C8_fail_records_as_data_witness :
    (TaskQueue.fail ⟨[C8_row]⟩ "t8" "boom" 9).tasks.length =
      (⟨[C8_row]⟩ : QState).tasks.length ∧
    ∀ r' ∈ (TaskQueue.fail ⟨[C8_row]⟩ "t8" "boom" 9).tasks,
      (r'.id ≠ "t8" → r' ∈ (⟨[C8_row]⟩ : QState).tasks) ∧
      (r'.id = "t8" → r'.status = "pending" ∨
        (r'.status = "failed" ∧ r'.error = some "boom")) :=
  C8_fail_records_as_data ⟨[C8_row]⟩ "t8" "boom" 9

/-! ### A concrete run used by several counterexamples:
submit `"t1"` at time 0, claim it as agent `"a"` at time 1, complete it with
result `"r1"` at time 2. -/

def ex_row1 : Row :=
  { id := "t1", operation := "create", sobject := "Acct", data := "d"
    status := "pending", priority := .normal, created_at := 0
    started_at := none, completed_at := none, result := none, error := none
    retry_count := 0, max_retries := 3, agent_id := none }

def ex_row2 : Row :=
  { ex_row1 with status := "processing", started_at := some 1
                 agent_id := some "a" }

def ex_row3 : Row :=
  { ex_row2 with status := "completed", completed_at := some 2
                 result := some "r1" }

def ex_s1 : QState := ⟨[ex_row1]⟩
def ex_s2 : QState := ⟨[ex_row2]⟩
def ex_s3 : QState := ⟨[ex_row3]⟩

/-- **C1 (code bug).** The two statements of `pop` — the `SELECT` and the
`UPDATE` — are separate steps, and the `UPDATE` has no
`status = 'pending'` guard, so two concurrent `pop` calls interleaved as
select(a), select(b), update(a), update(b) both return the task `"t1"`:
agent b's `SELECT` runs against the state before agent a's `UPDATE` commits,
and b's `UPDATE` then succeeds on the already-`'processing'` row. Both
callers hold a task with the same id at once, with different lease owners,
contradicting the claimed atomic claim semantics. -/
def C1_task : Task :=
  { id := "t1", operation := "create", sobject := "Acct", data := "d"
    created_at := 0 }

def C1_row : Row :=
  { id := "t1", operation := "create", sobject := "Acct", data := "d"
    status := "pending", priority := .normal, created_at := 0
    started_at := none, completed_at := none, result := none, error := none
    retry_count := 0, max_retries := 3, agent_id := none }

def C1_s0 : QState := ⟨[C1_row]⟩

/-- Agent a's `UPDATE` has committed. -/
def C1_sA : QState := popUpdate C1_s0 "t1" "a" 5

/-- Agent b's `UPDATE`, applied after a's, still succeeds. -/
def C1_sB : QState := popUpdate C1_sA "t1" "b" 6

theorem C1_concurrent_claim_race :
    SQLiteBackend.push ⟨[]⟩ C1_task = .ok C1_s0 ∧
    SQLiteBackend.pop C1_s0 "a" 5 5 = (some (popReturn C1_row "a" 5), C1_sA) ∧
    popSelect C1_s0 = some C1_row ∧
    (popReturn C1_row "a" 5).id = (popReturn C1_row "b" 6).id ∧
    (popReturn C1_row "a" 5).agent_id = some "a" ∧
    (popReturn C1_row "b" 6).agent_id = some "b" ∧
    C1_sB.tasks.find? (fun r => r.id = "t1") =
      some { C1_row with status := "processing", started_at := some 6
                         agent_id := some "b" } :=
  ⟨rfl, rfl, rfl, rfl, rfl, rfl, rfl⟩

/-- **C2 counterexample.** A task that reached terminal `Completed` returns
to `Pending`: after submit/claim/complete, a further `TaskQueue.fail` on the
completed task succeeds through `retry` (which never looks at `status`) and
resets the row to `'pending'` — terminal states are not enforced. -/
def C2_row4 : Row :=
  { ex_row3 with status := "pending", retry_count := 1, started_at := none
                 agent_id := none }

theorem C2_terminal_escaped :
    TaskQueue.submit ⟨[]⟩ "t1" "create" "Acct" "d" .normal 0 =
      .ok ("t1", ex_s1) ∧
    TaskQueue.get_next ex_s1 "a" 1 1 = (some (popReturn ex_row1 "a" 1), ex_s2) ∧
    TaskQueue.complete ex_s2 "t1" "r1" 2 = ex_s3 ∧
    (ex_s3.tasks.find? (fun r => r.id = "t1")).map Row.status =
      some "completed" ∧
    TaskQueue.fail ex_s3 "t1" "boom" 4 = ⟨[C2_row4]⟩ ∧
    ((⟨[C2_row4]⟩ : QState).tasks.find? (fun r => r.id = "t1")).map Row.status =
      some "pending" :=
  ⟨rfl, rfl, rfl, rfl, rfl, rfl⟩

/-- **C2 amended.** Terminal statuses are preserved by `claim` (`pop` only
selects `'pending'` rows) and by `complete`/`fail`/`retry` targeting other
ids; but `complete`, `fail` and `retry` themselves carry no status guard, so
an operation naming the terminal task's own id can move it out of
`Completed`/`Failed` (the counterexample: `fail` on a `Completed` task with
budget left returns it to `Pending`). -/
theorem C2_terminal_preserved_amended (s : QState)
    (hnd : (s.tasks.map Row.id).Nodup) (r : Row) (hr : r ∈ s.tasks)
    (hterm : r.status = "completed" ∨ r.status = "failed") :
    (∀ agentId now now2, r ∈ (SQLiteBackend.pop s agentId now now2).2.tasks) ∧
    (∀ taskId result now, taskId ≠ r.id →
      r ∈ (SQLiteBackend.complete s taskId result now).tasks) ∧
    (∀ taskId error now, taskId ≠ r.id →
      r ∈ (TaskQueue.fail s taskId error now).tasks) ∧
    (∀ taskId, taskId ≠ r.id → r ∈ (SQLiteBackend.retry s taskId).2.tasks) := by
  have hnp : r.status ≠ "pending" := by
    rcases hterm with h | h <;> rw [h] <;> decide
  refine ⟨?_, ?_, ?_, ?_⟩
  · intro agentId now now2
    cases hsel : popSelect s with
    | none => simp [SQLiteBackend.pop, hsel]; exact hr
    | some row =>
        have hrowmem := List.mem_filter.mp (selectBest_mem hsel)
        have hrowpend : row.status = "pending" := by simpa using hrowmem.2
        have hne : r.id ≠ row.id := by
          intro hEq
          have := List.inj_on_of_nodup_map hnd hr hrowmem.1 hEq
          rw [this, hrowpend] at hnp
          exact hnp rfl
        simp only [SQLiteBackend.pop, hsel, popUpdate]
        exact mem_updateWhereId_of_ne hr hne
  · intro taskId result now hne
    exact mem_updateWhereId_of_ne hr (fun h => hne h.symm)
  · intro taskId error now hne
    rcases hret : SQLiteBackend.retry s taskId with ⟨ok, s'⟩
    have hs' : r ∈ s'.tasks := by
      have hcopy := hret
      rcases hfind : s.tasks.find? (fun x => x.id = taskId) with _ | row
      · simp only [SQLiteBackend.retry, hfind] at hcopy
        injection hcopy with h1 h2
        subst h2
        exact hr
      · simp only [SQLiteBackend.retry, hfind] at hcopy
        by_cases hb : row.retry_count ≥ row.max_retries
        · rw [if_pos hb] at hcopy
          injection hcopy with h1 h2
          subst h2
          exact hr
        · rw [if_neg hb] at hcopy
          injection hcopy with h1 h2
          subst h2
          exact mem_updateWhereId_of_ne hr (fun h => hne h.symm)
    cases ok with
    | true => simpa [TaskQueue.fail, hret] using hs'
    | false =>
        simp only [TaskQueue.fail, hret]
        exact mem_updateWhereId_of_ne hs' (fun h => hne h.symm)
  · intro taskId hne
    rcases hfind : s.tasks.find? (fun x => x.id = taskId) with _ | row
    · simp [SQLiteBackend.retry, hfind]
      exact hr
    · by_cases hb : row.retry_count ≥ row.max_retries
      · simp [SQLiteBackend.retry, hfind, hb]
        exact hr
      · simp only [SQLiteBackend.retry, hfind, if_neg hb]
        exact mem_updateWhereId_of_ne hr (fun h => hne h.symm)

/-- **C2 amended, witness.** The completed row of the example run survives a
claim attempt and operations naming another id. -/
theorem C2_terminal_preserved_amended_witness :
    ex_row3 ∈ (SQLiteBackend.pop ex_s3 "z" 7 7).2.tasks ∧
    ex_row3 ∈ (SQLiteBackend.complete ex_s3 "other" "r" 7).tasks ∧
    ex_row3 ∈ (TaskQueue.fail ex_s3 "other" "e" 7).tasks ∧
    ex_row3 ∈ (SQLiteBackend.retry ex_s3 "other").2.tasks :=
  ⟨(C2_terminal_preserved_amended ex_s3 (by decide) ex_row3 (by decide)
      (Or.inl (by decide))).1 "z" 7 7,
   (C2_terminal_preserved_amended ex_s3 (by decide) ex_row3 (by decide)
      (Or.inl (by decide))).2.1 "other" "r" 7 (by decide),
   (C2_terminal_preserved_amended ex_s3 (by decide) ex_row3 (by decide)
      (Or.inl (by decide))).2.2.1 "other" "e" 7 (by decide),
   (C2_terminal_preserved_amended ex_s3 (by decide) ex_row3 (by decide)
      (Or.inl (by decide))).2.2.2 "other" (by decide)⟩

/-- **C5 counterexample.** A second `complete` on an already-completed id is
not a no-op: neither call raises (`complete` is total), but the second call
overwrites the stored result (`"r1"` becomes `"r2"`) and `completed_at`. -/
def C5_row4 : Row :=
  { ex_row3 with result := some "r2", completed_at := some 3 }

theorem C5_second_complete_overwrites :
    TaskQueue.submit ⟨[]⟩ "t1" "create" "Acct" "d" .normal 0 =
      .ok ("t1", ex_s1) ∧
    TaskQueue.get_next ex_s1 "a" 1 1 = (some (popReturn ex_row1 "a" 1), ex_s2) ∧
    TaskQueue.complete ex_s2 "t1" "r1" 2 = ex_s3 ∧
    (ex_s3.tasks.find? (fun r => r.id = "t1")).map Row.result =
      some (some "r1") ∧
    TaskQueue.complete ex_s3 "t1" "r2" 3 = ⟨[C5_row4]⟩ ∧
    ((⟨[C5_row4]⟩ : QState).tasks.find? (fun r => r.id = "t1")).map Row.result =
      some (some "r2") ∧
    (some "r1" : Option String) ≠ some "r2" :=
  ⟨rfl, rfl, rfl, rfl, rfl, rfl, by decide⟩

/-- **C5 amended.** Calling `complete` twice on the same id does not raise
(it is a total function with no error channel), but the second call is not a
no-op: `complete` is an unconditional `UPDATE`, so after any call the row
with the given id holds `'completed'`, the result of *that* call, and that
call's timestamp; rows with other ids are untouched. -/
theorem C5_complete_unconditional_amended (s : QState)
    (taskId result : String) (now : Nat) :
    ∀ r' ∈ (SQLiteBackend.complete s taskId result now).tasks,
      (r'.id = taskId → r'.status = "completed" ∧ r'.result = some result ∧
        r'.completed_at = some now) ∧
      (r'.id ≠ taskId → r' ∈ s.tasks) := by
  intro r' hr'
  obtain ⟨u, hu, heq⟩ := mem_updateWhereId hr'
  by_cases hcase : u.id = taskId
  · rw [if_pos hcase] at heq
    subst heq
    exact ⟨fun _ => ⟨rfl, rfl, rfl⟩, fun hne => absurd hcase hne⟩
  · rw [if_neg hcase] at heq
    subst heq
    exact ⟨fun hEq => absurd hEq hcase, fun _ => hu⟩

/-- **C5 amended, witness.** The second `complete` of the example run leaves
the row completed with the second call's result and timestamp. -/
theorem C5_complete_unconditional_amended_witness :
    C5_row4.status = "completed" ∧ C5_row4.result = some "r2" ∧
      C5_row4.completed_at = some 3 :=
  ((C5_complete_unconditional_amended ex_s3 "t1" "r2" 3) C5_row4
    (by decide)).1 (by decide)

/-- **C6 counterexample.** After submit/claim/complete, the row is
`'completed'` yet still carries `agent_id = "a"`: `complete` does not clear
the lease, so `leaseOwner` non-null does not imply `status = Processing`. -/
theorem C6_completed_keeps_lease :
    TaskQueue.submit ⟨[]⟩ "t1" "create" "Acct" "d" .normal 0 =
      .ok ("t1", ex_s1) ∧
    TaskQueue.get_next ex_s1 "a" 1 1 = (some (popReturn ex_row1 "a" 1), ex_s2) ∧
    TaskQueue.complete ex_s2 "t1" "r1" 2 = ex_s3 ∧
    ex_row3 ∈ ex_s3.tasks ∧
    ex_row3.status = "completed" ∧
    ex_row3.agent_id = some "a" :=
  ⟨rfl, rfl, rfl, by decide, rfl, rfl⟩

/-! ### Reachable-state machinery -/

theorem submit_ok_tasks {s s' : QState} {fid fid' op sobj d : String}
    {pr : TaskPriority} {now : Nat}
    (h : TaskQueue.submit s fid op sobj d pr now = .ok (fid', s')) :
    s'.tasks = s.tasks ++
      [{ id := fid, operation := op, sobject := sobj, data := d
         status := "pending", priority := pr, created_at := now
         started_at := none, completed_at := none, result := none
         error := none, retry_count := 0, max_retries := 3
         agent_id := none }] := by
  unfold TaskQueue.submit SQLiteBackend.push at h
  split at h
  · rename_i x0 s0 heq0
    simp only [Except.ok.injEq, Prod.mk.injEq] at h
    split at heq0
    · exact absurd heq0 (by simp)
    · simp only [Except.ok.injEq] at heq0
      rw [← h.2, ← heq0]
      rfl
  · exact absurd h (by simp)

theorem forall_mem_updateWhereId {P : Row → Prop} {l : List Row}
    {taskId : String} {f : Row → Row}
    (hl : ∀ r ∈ l, P r) (hf : ∀ r ∈ l, P (f r)) :
    ∀ r ∈ updateWhereId taskId f l, P r := by
  intro r' hr'
  obtain ⟨u, hu, heq⟩ := mem_updateWhereId hr'
  by_cases hc : u.id = taskId
  · rw [if_pos hc] at heq; subst heq; exact hf u hu
  · rw [if_neg hc] at heq; subst heq; exact hl _ hu

theorem pop_snd_tasks (s : QState) (a : String) (n n2 : Nat) :
    (SQLiteBackend.pop s a n n2).2 = s ∨
    ∃ row, popSelect s = some row ∧
      (SQLiteBackend.pop s a n n2).2.tasks =
        updateWhereId row.id
          (fun r => { r with status := "processing", started_at := some n
                             agent_id := some a }) s.tasks := by
  cases hsel : popSelect s with
  | none => left; simp [SQLiteBackend.pop, hsel]
  | some row =>
      right
      exact ⟨row, rfl, by simp [SQLiteBackend.pop, hsel, popUpdate]⟩

theorem fail_tasks_cases (s : QState) (taskId error : String) (now : Nat) :
    (TaskQueue.fail s taskId error now).tasks =
      updateWhereId taskId requeueRow s.tasks ∨
    (TaskQueue.fail s taskId error now).tasks =
      updateWhereId taskId (markFailedRow error now) s.tasks := by
  rcases hfind : s.tasks.find? (fun x => x.id = taskId) with _ | row
  · right
    have hret : SQLiteBackend.retry s taskId = (false, s) := by
      simp [SQLiteBackend.retry, hfind]
    simp only [TaskQueue.fail, hret]
    rfl
  · by_cases hb : row.retry_count ≥ row.max_retries
    · right
      have hret : SQLiteBackend.retry s taskId = (false, s) := by
        simp [SQLiteBackend.retry, hfind, hb]
      simp only [TaskQueue.fail, hret]
      rfl
    · left
      have hret : SQLiteBackend.retry s taskId =
          (true, ⟨updateWhereId taskId requeueRow s.tasks⟩) := by
        simp only [SQLiteBackend.retry, hfind, if_neg hb]
        rfl
      simp only [TaskQueue.fail, hret]

theorem reach_length {n : Nat} {s : QState} (h : Reach n s) :
    s.tasks.length = n := by
  induction h with
  | init => rfl
  | submit hre hsub ih =>
      rw [submit_ok_tasks hsub]
      simp [ih]
  | claim hre ih =>
      rename_i s agentId now now2
      rcases pop_snd_tasks s agentId now now2 with hcase | ⟨row, hsel, hcase⟩
      · show (SQLiteBackend.pop s agentId now now2).2.tasks.length = _
        rw [hcase]; exact ih
      · show (SQLiteBackend.pop s agentId now now2).2.tasks.length = _
        rw [hcase, length_updateWhereId]; exact ih
  | complete hre ih =>
      rename_i s taskId result now
      show (updateWhereId taskId _ s.tasks).length = _
      rw [length_updateWhereId]; exact ih
  | fail hre ih =>
      rename_i s taskId error now
      rcases fail_tasks_cases s taskId error now with hcase | hcase <;>
        rw [hcase, length_updateWhereId] <;> exact ih

theorem reach_status_valid {n : Nat} {s : QState} (h : Reach n s) :
    ∀ r ∈ s.tasks, r.status = "pending" ∨ r.status = "processing" ∨
      r.status = "completed" ∨ r.status = "failed" := by
  induction h with
  | init => intro r hr; simp at hr
  | submit hre hsub ih =>
      rw [submit_ok_tasks hsub]
      intro r hr
      rcases List.mem_append.mp hr with h1 | h1
      · exact ih r h1
      · simp only [List.mem_singleton] at h1
        subst h1
        left; rfl
  | claim hre ih =>
      rename_i s agentId now now2
      rcases pop_snd_tasks s agentId now now2 with hcase | ⟨row, hsel, hcase⟩
      · show ∀ r ∈ (SQLiteBackend.pop s agentId now now2).2.tasks, _
        rw [hcase]; exact ih
      · show ∀ r ∈ (SQLiteBackend.pop s agentId now now2).2.tasks, _
        intro r hr
        rw [hcase] at hr
        exact forall_mem_updateWhereId ih
          (fun u _ => Or.inr (Or.inl rfl)) r hr
  | complete hre ih =>
      rename_i s taskId result now
      exact forall_mem_updateWhereId ih
        (fun u _ => Or.inr (Or.inr (Or.inl rfl)))
  | fail hre ih =>
      rename_i s taskId error now
      rcases fail_tasks_cases s taskId error now with hcase | hcase <;>
        intro r hr <;> rw [hcase] at hr
      · exact forall_mem_updateWhereId ih (fun u _ => Or.inl rfl) r hr
      · exact forall_mem_updateWhereId ih
          (fun u _ => Or.inr (Or.inr (Or.inr rfl))) r hr

theorem countP_four_eq_length {l : List Row}
    (hv : ∀ r ∈ l, r.status = "pending" ∨ r.status = "processing" ∨
      r.status = "completed" ∨ r.status = "failed") :
    l.countP (fun r => r.status = "pending") +
      l.countP (fun r => r.status = "processing") +
      l.countP (fun r => r.status = "completed") +
      l.countP (fun r => r.status = "failed") = l.length := by
  induction l with
  | nil => rfl
  | cons a t ih =>
      have iht := ih (fun r hr => hv r (List.mem_cons_of_mem a hr))
      have ha := hv a (List.mem_cons_self a t)
      rcases ha with h | h | h | h <;>
        simp only [List.countP_cons, List.length_cons, h] <;> simp <;> omega

theorem stats_total_eq_length (s : QState) :
    ((statusGroups s).map (fun st => countStatus s st)).sum =
      s.tasks.length := by
  have hc : ∀ st, countStatus s st = (s.tasks.map Row.status).count st := by
    intro st
    rw [List.count_eq_countP, List.countP_map]
    apply List.countP_congr
    intro r _
    simp [Function.comp]
  rw [statusGroups, List.map_congr_left (fun st _ => hc st),
    List.sum_map_count_dedup_eq_length, List.length_map]

/-- **C6 amended.** In every state reachable through the public queue
interface, a `'processing'` row has a non-null `agent_id` (the lease is set
at claim time and cleared by requeue). The converse direction of the spec's
"iff" fails — `complete` and `fail` do not clear the lease (see the
counterexample) — so only this direction holds. -/
theorem C6_processing_has_lease_amended {n : Nat} {s : QState}
    (h : Reach n s) :
    ∀ r ∈ s.tasks, r.status = "processing" → r.agent_id ≠ none := by
  induction h with
  | init => intro r hr; simp at hr
  | submit hre hsub ih =>
      rw [submit_ok_tasks hsub]
      intro r hr
      rcases List.mem_append.mp hr with h1 | h1
      · exact ih r h1
      · simp only [List.mem_singleton] at h1
        subst h1
        intro hproc
        simp at hproc
  | claim hre ih =>
      rename_i s agentId now now2
      rcases pop_snd_tasks s agentId now now2 with hcase | ⟨row, hsel, hcase⟩
      · show ∀ r ∈ (SQLiteBackend.pop s agentId now now2).2.tasks, _
        rw [hcase]; exact ih
      · show ∀ r ∈ (SQLiteBackend.pop s agentId now now2).2.tasks, _
        intro r hr
        rw [hcase] at hr
        exact forall_mem_updateWhereId ih
          (fun u _ _ => by simp) r hr
  | complete hre ih =>
      rename_i s taskId result now
      refine forall_mem_updateWhereId ih (fun u hu hproc => ?_)
      simp at hproc
  | fail hre ih =>
      rename_i s taskId error now
      rcases fail_tasks_cases s taskId error now with hcase | hcase <;>
        intro r hr <;> rw [hcase] at hr
      · exact forall_mem_updateWhereId ih
          (fun u _ hproc => by simp [requeueRow] at hproc) r hr
      · exact forall_mem_updateWhereId ih
          (fun u _ hproc => by simp [markFailedRow] at hproc) r hr

/-- **C6 amended, witness.** The claimed row of the example run (a reachable
state: submit then claim) is `'processing'` and holds lease `"a"`. -/
theorem C6_processing_has_lease_amended_witness :
    ex_row2.agent_id ≠ none :=
  C6_processing_has_lease_amended
    (@Reach.claim 1 ex_s1 "a" 1 1
      (@Reach.submit 0 ⟨[]⟩ ex_s1 "t1" "create" "Acct" "d"
        TaskPriority.normal 0 Reach.init rfl))
    ex_row2 (by decide) rfl

/-- **C9.** In every reachable state, `stats()` returns a `total` equal to
the sum of the four per-status counts (every reachable row's status is one
of the four resting statuses) and equal to the number of tasks ever
submitted — no operation deletes a row. -/
theorem C9_stats_consistent {n : Nat} {s : QState} (h : Reach n s) :
    (TaskQueue.stats s).total =
      (TaskQueue.stats s).pending + (TaskQueue.stats s).processing +
      (TaskQueue.stats s).completed + (TaskQueue.stats s).failed ∧
    (TaskQueue.stats s).total = n := by
  have htot : (TaskQueue.stats s).total = s.tasks.length :=
    stats_total_eq_length s
  constructor
  · rw [htot]
    exact (countP_four_eq_length (reach_status_valid h)).symm
  · rw [htot]
    exact reach_length h

def C9_row1 : Row :=
  { id := "u1", operation := "create", sobject := "Acct", data := "d1"
    status := "pending", priority := .normal, created_at := 1
    started_at := none, completed_at := none, result := none, error := none
    retry_count := 0, max_retries := 3, agent_id := none }

def C9_row2 : Row :=
  { id := "u2", operation := "update", sobject := "Contact", data := "d2"
    status := "pending", priority := .high, created_at := 2
    started_at := none, completed_at := none, result := none, error := none
    retry_count := 0, max_retries := 3, agent_id := none }

def C9_s1 : QState := ⟨[C9_row1]⟩
def C9_s2 : QState := ⟨[C9_row1, C9_row2]⟩
def C9_s2c : QState := (TaskQueue.get_next C9_s2 "w" 3 3).2

/-- **C9 witness.** A reachable state of two submitted tasks, one claimed:
stats are consistent and `total = 2`. -/
theorem C9_stats_consistent_witness :
    (TaskQueue.stats C9_s2c).total =
      (TaskQueue.stats C9_s2c).pending + (TaskQueue.stats C9_s2c).processing +
      (TaskQueue.stats C9_s2c).completed + (TaskQueue.stats C9_s2c).failed ∧
    (TaskQueue.stats C9_s2c).total = 2 :=
  C9_stats_consistent
    (@Reach.claim 2 C9_s2 "w" 3 3
      (@Reach.submit 1 C9_s1 C9_s2 "u2" "update" "Contact" "d2"
        TaskPriority.high 2
        (@Reach.submit 0 ⟨[]⟩ C9_s1 "u1" "create" "Acct" "d1"
          TaskPriority.normal 1 Reach.init rfl) rfl))

end TQ
